import Mathlib

/-!
Verification development for `download_webmethods_assets.py`, a single-file
batch job that loads a JSON document, extracts asset records, downloads each
asset to a local directory, and optionally commits/pushes the results with
git.  The Python source is shallowly embedded below: pure string and path
manipulations are translated directly, and the effectful boundaries (HTTP,
filesystem, subprocess, the `html.unescape` and `os.path.relpath` library
calls, and the JSON parser) are abstracted as explicit oracle parameters so
that every function is total and executable.
-/

set_option autoImplicit false

/-- Json models a parsed JSON value as produced by Python's `json.load` /
`json.loads`: `None`, booleans, numbers (integral numbers suffice for this
development; no claim involves floats), strings, lists, and dicts (modelled
as association lists with unique keys, first binding wins). -/
inductive Json where
  | null
  | bool (b : Bool)
  | num (n : Int)
  | str (s : String)
  | arr (xs : List Json)
  | obj (kvs : List (String × Json))

/-- lookupKey models Python dict indexing `d[k]` (as `Option`): the value of
the first binding of `k` in the association list, if any. -/
def lookupKey (kvs : List (String × Json)) (k : String) : Option Json :=
  match kvs with
  | [] => none
  | (k', v) :: rest => if k' = k then some v else lookupKey rest k

/-- hasKey models Python's `k in d` membership test on a dict. -/
def hasKey (kvs : List (String × Json)) (k : String) : Bool :=
  (lookupKey kvs k).isSome

/-- getKeyD is dict indexing in a context where the key is already known to
be present (the source guards every `asset[k]` with `k in asset`). -/
def getKeyD (kvs : List (String × Json)) (k : String) : Json :=
  (lookupKey kvs k).getD Json.null

/-- pyFalsy models Python truthiness (`not x`) on parsed JSON values:
`None`, `False`, `0`, `""`, `[]` and `{}` are falsy. -/
def pyFalsy : Json → Bool
  | .null => true
  | .bool b => !b
  | .num n => n == 0
  | .str s => s.isEmpty
  | .arr xs => xs.isEmpty
  | .obj kvs => kvs.isEmpty

/-- isStrEq tests whether a JSON value equals (in Python `==` terms) a given
string: only an equal string does. -/
def isStrEq (k : String) : Json → Bool
  | .str t => t == k
  | _ => false

/-- isListVal tests `isinstance(v, list)` on an optional dict lookup:
true exactly when the key was present and its value is a JSON array. -/
def isListVal : Option Json → Bool
  | some (.arr _) => true
  | _ => false

/-- beforeFirst returns the characters before the first occurrence of `sep`,
modelling Python `s.split(sep)[0]`. -/
def beforeFirst (sep : Char) : List Char → List Char
  | [] => []
  | c :: cs => if c = sep then [] else c :: beforeFirst sep cs

/-- afterLast returns the characters after the last occurrence of `sep`
(the whole list when `sep` does not occur), modelling
`os.path.basename` for `sep = '/'` on POSIX. -/
def afterLast (sep : Char) : List Char → List Char
  | [] => []
  | c :: cs =>
    if cs.contains sep then afterLast sep cs
    else if c = sep then cs
    else c :: cs

/-- lastDotSuffix returns the suffix of the list starting at the last `'.'`
(dot included), if the list contains a dot. -/
def lastDotSuffix : List Char → Option (List Char)
  | [] => none
  | c :: cs =>
    match lastDotSuffix cs with
    | some s => some s
    | none => if c = '.' then some (c :: cs) else none

/-- charsHasPre tests whether the first list is an initial segment of the
second. -/
def charsHasPre : List Char → List Char → Bool
  | [], _ => true
  | _ :: _, [] => false
  | a :: as, b :: bs => a == b && charsHasPre as bs

/-- charsHasSub tests whether the first list occurs as a contiguous block of
the second, modelling Python's `needle in haystack` on strings. -/
def charsHasSub (needle : List Char) : List Char → Bool
  | [] => needle.isEmpty
  | b :: bs => charsHasPre needle (b :: bs) || charsHasSub needle bs

/-- splitextExt models `os.path.splitext(p)[1]` (POSIX): the extension is the
suffix from the last dot of the final path component, provided that component
has a character that is not a leading dot before that last dot; otherwise the
extension is empty (so `"y.tar.gz"` gives `".gz"`, `".gz"` and `"..gz"` give
`""`).  This branch-free reformulation is equivalent to CPython's index scan:
CPython returns a nonempty extension iff some character strictly between the
start of the component and its last dot is not a dot, which holds iff the
component still contains a dot after its leading dots are stripped. -/
def splitextExt (s : String) : String :=
  let b := afterLast '/' s.data
  let lead := b.takeWhile (fun c => c = '.')
  let rest := b.drop lead.length
  if rest.contains '.' then
    match lastDotSuffix b with
    | some e => String.mk e
    | none => ""
  else ""

/-- keepChar is the character whitelist of the sanitizer at line 254 of the
source: `c.isalnum() or c in '._- '`.  Python's `str.isalnum` is
Unicode-aware; this development models its ASCII fragment (every input in the
spec and the claims is ASCII). -/
def keepChar (c : Char) : Bool :=
  c.isAlphanum || c = '.' || c = '_' || c = '-' || c = ' '

/-- sanitizeFilename models line 254 of the source:
`''.join(c for c in filename if c.isalnum() or c in '._- ')`. -/
def sanitizeFilename (s : String) : String :=
  String.mk (s.data.filter keepChar)

/-- pyJoin models POSIX `os.path.join(a, b)` for two components: `b` wins if
absolute; otherwise the parts are glued with exactly one `'/'`. -/
def pyJoin (a b : String) : String :=
  if b.data.head? = some '/' then b
  else if a = "" || a.data.getLast? = some '/' then a ++ b
  else a ++ "/" ++ b

mutual

/-- pyStr models Python `str(v)` on a parsed JSON value, as used by the
f-string at line 247 of the source (`f"{asset['name']}.{asset['type']}{ext}"`).
Scalars print as in Python (`None`, `True`, `False`, decimal integers, the
string itself); containers print via `repr` of their elements.  String
escaping inside `repr` is modelled as plain single quotes (exact for strings
without quotes, backslashes or control characters; no claim exercises the
escaped cases). -/
def pyStr : Json → String
  | .null => "None"
  | .bool true => "True"
  | .bool false => "False"
  | .num n => toString n
  | .str s => s
  | .arr xs => "[" ++ reprArr xs ++ "]"
  | .obj kvs => "\x7b" ++ reprObj kvs ++ "\x7d"

/-- reprJson models Python `repr(v)` on a parsed JSON value (see `pyStr` for
the string-escaping caveat). -/
def reprJson : Json → String
  | .null => "None"
  | .bool true => "True"
  | .bool false => "False"
  | .num n => toString n
  | .str s => "\x27" ++ s ++ "\x27"
  | .arr xs => "[" ++ reprArr xs ++ "]"
  | .obj kvs => "\x7b" ++ reprObj kvs ++ "\x7d"

/-- reprArr renders the comma-separated element list of a Python list repr. -/
def reprArr : List Json → String
  | [] => ""
  | [x] => reprJson x
  | x :: y :: xs => reprJson x ++ ", " ++ reprArr (y :: xs)

/-- reprObj renders the comma-separated entry list of a Python dict repr. -/
def reprObj : List (String × Json) → String
  | [] => ""
  | [(k, v)] => "\x27" ++ k ++ "\x27: " ++ reprJson v
  | (k, v) :: p :: xs => "\x27" ++ k ++ "\x27: " ++ reprJson v ++ ", " ++ reprObj (p :: xs)

end

/-- urlKeys is the URL-key priority list of lines 229-232 of the source. -/
def urlKeys : List String :=
  ["downloadLink", "download_link", "url", "link", "downloadUrl"]

/-- scanUrl models lines 226-232 of the source: scan `urlKeys` in order and
take the value of the first key present in the record, regardless of that
value (the loop breaks on `key in asset`, before looking at the value). -/
def scanUrl (kvs : List (String × Json)) : Option Json :=
  match urlKeys.find? (fun k => hasKey kvs k) with
  | some k => lookupKey kvs k
  | none => none

/-- assetKeys is the container-key priority list of line 215 of the source. -/
def assetKeys : List String :=
  ["assets", "items", "data", "results"]

/-- findAssets models lines 212-222 of the source: a dict is scanned for the
first key of `assetKeys` that is present with a list value; a list is used
directly; anything else (including a dict with no list-valued candidate key)
fails the `isinstance(assets, list)` check and yields no asset array. -/
def findAssets (j : Json) : Option (List Json) :=
  match j with
  | .arr xs => some xs
  | .obj kvs =>
    match assetKeys.find? (fun k => isListVal (lookupKey kvs k)) with
    | some k =>
      match lookupKey kvs k with
      | some (.arr xs) => some xs
      | _ => none
    | none => none
  | _ => none

/-- deriveFilename models lines 241-251 of the source, producing the Python
`filename` variable (before sanitization) from an asset record and the
already-unescaped URL.  The result is a `Json` value because the
`asset['filename']` branch uses the record value verbatim, which need not be
a string. -/
def deriveFilename (kvs : List (String × Json)) (url : String) : Json :=
  let filename := String.mk (afterLast '/' (beforeFirst '?' url.data))
  if hasKey kvs "name" && hasKey kvs "type" then
    let e := splitextExt filename
    let ext := if e = "" then ".zip" else e
    .str (pyStr (getKeyD kvs "name") ++ "." ++ pyStr (getKeyD kvs "type") ++ ext)
  else if hasKey kvs "filename" then getKeyD kvs "filename"
  else if hasKey kvs "name" then .str (pyStr (getKeyD kvs "name") ++ ".zip")
  else .str filename

/-- specExtC2 is modelled from the spec's words for claim C2 (not from the
source): the extension is the text from the last `'.'` of the last path
segment of the URL (query string ignored, dot included), defaulting to
`".zip"` when the segment has no dot.  It is compared against the source's
`splitext`-based extension. -/
def specExtC2 (url : String) : String :=
  let seg := afterLast '/' (beforeFirst '?' url.data)
  match lastDotSuffix seg with
  | some e => String.mk e
  | none => ".zip"

/-- processRecord models one iteration of the asset loop (lines 224-261 of
the source) for one record.  `dl` is the download oracle (the boolean result
of `download_file url output_path`), `un` models `html.unescape`.  The result
is `.ok (some path)` when the record's file was downloaded, `.ok none` when
the record was skipped (missing or falsy URL value, or failed download), and
`.error ()` when the Python code would raise a `TypeError` out of the loop
body (membership test on a non-container record, indexing a list or string
record, `html.unescape` of a non-string URL value, or sanitizing a
non-string `filename` value); such an exception is caught at line 263 and
fails the whole batch. -/
def processRecord (dl : String → String → Bool) (un : String → String)
    (outputDir : String) (asset : Json) : Except Unit (Option String) :=
  match asset with
  | .obj kvs =>
    match scanUrl kvs with
    | none => .ok none
    | some v =>
      if pyFalsy v then .ok none
      else
        match v with
        | .str s =>
          let url := un s
          match deriveFilename kvs url with
          | .str fn =>
            let outPath := pyJoin outputDir (sanitizeFilename fn)
            if dl url outPath then .ok (some outPath) else .ok none
          | _ => .error ()
        | _ => .error ()
  | .arr xs =>
    if urlKeys.any (fun k => xs.any (isStrEq k)) then .error () else .ok none
  | .str s =>
    if urlKeys.any (fun k => charsHasSub k.data s.data) then .error () else .ok none
  | _ => .error ()

/-- processList models the asset loop of lines 224-261 of the source over a
whole list, accumulating the `downloaded_files` list in iteration order; an
exception anywhere aborts with `.error` (caught at line 263). -/
def processList (dl : String → String → Bool) (un : String → String)
    (outputDir : String) : List Json → Except Unit (List String)
  | [] => .ok []
  | a :: rest =>
    match processRecord dl un outputDir a with
    | .error e => .error e
    | .ok none => processList dl un outputDir rest
    | .ok (some p) => (processList dl un outputDir rest).map (fun ps => p :: ps)

/-- processAssets models `process_assets` (lines 198-274 of the source).
`gitResult` is the oracle for the boolean outcome of `git_operations` when it
is invoked (its arguments — branch and commit message — do not influence the
control flow here).  Python's `git_repo = None` default is modelled as the
equally falsy `""`.  Returns the function's boolean result. -/
def processAssets (dl : String → String → Bool) (un : String → String)
    (gitResult : Bool) (jsonData : Option Json) (outputDir gitRepo : String) : Bool :=
  match jsonData with
  | none => false
  | some j =>
    if pyFalsy j then false
    else
      match findAssets j with
      | none => false
      | some assets =>
        match processList dl un outputDir assets with
        | .error _ => false
        | .ok files =>
          if gitRepo ≠ "" && !files.isEmpty then gitResult
          else decide (0 < files.length)

/-- loadJsonData models `load_json_data` (lines 42-59 of the source).
`readFile` is the filesystem oracle (`.error` = any `open`/read failure) and
`parse` the JSON-parser oracle (`none` = parse error, which Python raises and
the function catches).  A `None` argument is modelled as `none`; Python's
truthiness makes an empty-string argument fall through to the next branch
exactly like `None`. -/
def loadFromString (parse : String → Option Json) (jsonString : Option String) : Option Json :=
  match jsonString with
  | some s => if s = "" then none else parse s
  | none => none

/-- loadJsonData models `load_json_data`; see `loadFromString`. -/
def loadJsonData (readFile : String → Except Unit String) (parse : String → Option Json)
    (jsonFile jsonString : Option String) : Option Json :=
  match jsonFile with
  | some p =>
    if p = "" then loadFromString parse jsonString
    else
      match readFile p with
      | .error _ => none
      | .ok txt => parse txt
  | none => loadFromString parse jsonString

/-- mainExit models `main` (lines 276-298) plus the `sys.exit` at line 301:
the process exit code for one run, with all effect boundaries as oracles. -/
def mainExit (dl : String → String → Bool) (un : String → String) (gitResult : Bool)
    (readFile : String → Except Unit String) (parse : String → Option Json)
    (jsonFile jsonString : Option String) (outputDir gitRepo : String) : Nat :=
  if processAssets dl un gitResult (loadJsonData readFile parse jsonFile jsonString)
      outputDir gitRepo then 0 else 1

/-- runFiles is the `downloaded_files` list a run ends the download phase
with (empty when the run never reaches or never completes that phase); used
to state claim C5's failure conditions. -/
def runFiles (dl : String → String → Bool) (un : String → String)
    (readFile : String → Except Unit String) (parse : String → Option Json)
    (jsonFile jsonString : Option String) (outputDir : String) : List String :=
  match loadJsonData readFile parse jsonFile jsonString with
  | none => []
  | some j =>
    match findAssets j with
    | none => []
    | some assets =>
      match processList dl un outputDir assets with
      | .error _ => []
      | .ok files => files

/-- c5SpecFailure is modelled from the spec's words for claim C5 (not from
the source): the claimed exhaustive list of failure conditions — no JSON
loaded, no asset array found, no files downloaded when a publish was
requested, or a publish-step failure. -/
def c5SpecFailure (dl : String → String → Bool) (un : String → String) (gitResult : Bool)
    (readFile : String → Except Unit String) (parse : String → Option Json)
    (jsonFile jsonString : Option String) (outputDir gitRepo : String) : Prop :=
  loadJsonData readFile parse jsonFile jsonString = none
  ∨ (∃ j, loadJsonData readFile parse jsonFile jsonString = some j ∧ findAssets j = none)
  ∨ (gitRepo ≠ "" ∧ runFiles dl un readFile parse jsonFile jsonString outputDir = [])
  ∨ (gitRepo ≠ "" ∧ runFiles dl un readFile parse jsonFile jsonString outputDir ≠ []
      ∧ gitResult = false)

/-- c5Success is the exact success condition of the code path through
`load_json_data`, `process_assets` and `main`: truthy JSON loaded, an asset
array found, no exception while iterating it, at least one file downloaded,
and — when a publish is requested (truthy `git_repo`) — a successful publish. -/
def c5Success (dl : String → String → Bool) (un : String → String) (gitResult : Bool)
    (readFile : String → Except Unit String) (parse : String → Option Json)
    (jsonFile jsonString : Option String) (outputDir gitRepo : String) : Prop :=
  ∃ j assets files,
    loadJsonData readFile parse jsonFile jsonString = some j
    ∧ pyFalsy j = false
    ∧ findAssets j = some assets
    ∧ processList dl un outputDir assets = .ok files
    ∧ files ≠ []
    ∧ (gitRepo ≠ "" → gitResult = true)

/-- DlEnv abstracts the effect boundaries touched by one `download_file`
call: whether `os.makedirs` succeeds, whether the mock-file write succeeds,
the HTTP transport outcome (`.error` = transport-level exception from
`requests.get`, `.ok status` = a response with that status code), and
whether writing the streamed body succeeds. -/
structure DlEnv where
  mkdirOk : Bool
  mockWriteOk : Bool
  httpResult : Except Unit Nat
  bodyWriteOk : Bool

/-- failedMsg is the `logger.error` text of lines 92 and 95 of the source
(the appended exception text is not modelled). -/
def failedMsg (url : String) : String :=
  "Failed to download " ++ url

/-- notFoundMsg is the `logger.error` text of line 89 of the source. -/
def notFoundMsg (url : String) : String :=
  "URL not found: " ++ url

/-- mockHintMsg is the `logger.info` text of line 90 of the source. -/
def mockHintMsg : String :=
  "If you\x27re testing with example URLs, use the --mock flag to create mock files."

/-- downloadFile models `download_file` (lines 61-96 of the source) as a
total function: the try/except structure is flattened into the explicit
failure branches, so by construction every failure is converted to `false`
(the "never raises past this boundary" contract).  `requests`'
`raise_for_status` raises `HTTPError` exactly for status codes in
`[400, 600)`.  The second component is the log trail. -/
def downloadFile (env : DlEnv) (url outputPath : String) (mock : Bool) :
    Bool × List String :=
  if !env.mkdirOk then (false, [failedMsg url])
  else if mock then
    if env.mockWriteOk then (true, ["Mock downloaded: " ++ outputPath])
    else (false, [failedMsg url])
  else
    match env.httpResult with
    | .error _ => (false, ["Downloading from: " ++ url, failedMsg url])
    | .ok status =>
      if 400 ≤ status && status < 600 then
        if status = 404 then
          (false, ["Downloading from: " ++ url, notFoundMsg url, mockHintMsg])
        else (false, ["Downloading from: " ++ url, failedMsg url])
      else if env.bodyWriteOk then
        (true, ["Downloading from: " ++ url, "Downloaded: " ++ outputPath])
      else (false, ["Downloading from: " ++ url, failedMsg url])

/-- GitCmd is one external `git` invocation, recorded for the execution
trace of the standalone publisher. -/
inductive GitCmd where
  | init (repo : String)
  | revParse (branch : String)
  | checkoutNew (branch : String)
  | checkout (branch : String)
  | add (path : String)
  | status
  | commit (msg : String)
  | remoteList
  | push (branch : String)
  deriving DecidableEq

/-- GitEnv abstracts the outcomes of the external calls made by the
standalone branch of `git_operations`: whether `repo/.git` exists, whether
each checked (`check=True`) git command succeeds, the return code of the
unchecked `rev-parse`, the stdout of the unchecked `status --porcelain` and
`remote` queries, and whether `os.chdir(repo_path)` succeeds. -/
structure GitEnv where
  gitDirExists : Bool
  initOk : Bool
  chdirRepoOk : Bool
  revParseRc : Int
  checkoutOk : Bool
  addOk : String → Bool
  statusOut : String
  commitOk : Bool
  remoteOut : String
  pushOk : Bool

/-- stripTruthy models `s.strip()` used as a condition: true iff the string
has a non-whitespace character. -/
def stripTruthy (s : String) : Bool :=
  s.data.any (fun c => !c.isWhitespace)

/-- GitResult is the outcome of one standalone `git_operations` run: the
boolean result, the sequence of `os.chdir` targets performed (in order), the
git commands executed, and the log trail. -/
structure GitResult where
  ok : Bool
  chdirs : List String
  trace : List GitCmd
  logs : List String

/-- runAdds models the `git add` loop of lines 156-159 of the source: each
file is staged by its path relative to the repository (`rp` is the oracle for
`os.path.relpath (· , repo_path)`); a failing add raises out of the loop. -/
def runAdds (env : GitEnv) (rp : String → String) :
    List String → Except Unit Unit × List GitCmd
  | [] => (.ok (), [])
  | f :: fs =>
    let r := rp f
    if env.addOk r then
      let (res, tr) := runAdds env rp fs
      (res, .add r :: tr)
    else (.error (), [.add r])

/-- gitAfterCheckout models lines 155-181 of the source (staging, status
check, commit, remote check, push), given the trace and logs accumulated so
far; `.error` means a checked git command failed (raising
`CalledProcessError`). -/
def gitAfterCheckout (env : GitEnv) (rp : String → String) (files : List String)
    (branch msg : String) (tr0 : List GitCmd) (lg0 : List String) :
    Except Unit Unit × List GitCmd × List String :=
  match runAdds env rp files with
  | (.error _, atr) => (.error (), tr0 ++ atr, lg0)
  | (.ok _, atr) =>
    let tr1 := tr0 ++ atr ++ [.status]
    if stripTruthy env.statusOut then
      if !env.commitOk then (.error (), tr1 ++ [.commit msg], lg0)
      else
        let lg1 := lg0 ++ ["Committed changes with message: " ++ msg]
        let tr2 := tr1 ++ [.commit msg, .remoteList]
        if charsHasSub "origin".data env.remoteOut.data then
          if env.pushOk then
            (.ok (), tr2 ++ [.push branch], lg1 ++ ["Pushed changes to remote repository"])
          else (.error (), tr2 ++ [.push branch], lg1)
        else (.ok (), tr2, lg1 ++ ["No remote repository configured, skipping push"])
    else (.ok (), tr1, lg0 ++ ["No changes to commit"])

/-- gitInner models the inner try block of lines 141-181 of the source
(branch probe, checkout or branch creation, then `gitAfterCheckout`). -/
def gitInner (env : GitEnv) (rp : String → String) (files : List String)
    (branch msg : String) : Except Unit Unit × List GitCmd × List String :=
  if env.revParseRc ≠ 0 then
    if env.checkoutOk then
      gitAfterCheckout env rp files branch msg [.revParse branch, .checkoutNew branch]
        ["Created and checked out new branch: " ++ branch]
    else (.error (), [.revParse branch, .checkoutNew branch], [])
  else
    if env.checkoutOk then
      gitAfterCheckout env rp files branch msg [.revParse branch, .checkout branch]
        ["Checked out existing branch: " ++ branch]
    else (.error (), [.revParse branch, .checkout branch], [])

/-- gitOperationsStandalone models the standalone (non-GitHub-Actions) branch
of `git_operations` (lines 128-193 of the source).  The exit paths are:
failure of `git init` or of `os.chdir(repo_path)` before any directory
change sticks (the `except` at line 188 finds the cwd unchanged); or the
inner try block, whose `finally` at line 183 performs `os.chdir(original_dir)`
on both the normal and the raising path — on the raising path the `except`
at line 188 then sees the cwd already restored and returns `False`.
`relpath` is the oracle for `os.path.relpath`; restoring into the original
directory is modelled as always possible (it was the process cwd at entry). -/
def gitOperationsStandalone (env : GitEnv) (relpath : String → String → String)
    (repoPath : String) (files : List String) (branch msg origDir : String) : GitResult :=
  if !env.gitDirExists && !env.initOk then
    ⟨false, [], [.init repoPath], []⟩
  else
    let initTr : List GitCmd := if env.gitDirExists then [] else [.init repoPath]
    let initLg : List String :=
      if env.gitDirExists then [] else ["Initialized new Git repository at " ++ repoPath]
    if !env.chdirRepoOk then ⟨false, [], initTr, initLg⟩
    else
      match gitInner env (fun f => relpath f repoPath) files branch msg with
      | (.ok _, tr, lg) => ⟨true, [repoPath, origDir], initTr ++ tr, initLg ++ lg⟩
      | (.error _, tr, lg) =>
        ⟨false, [repoPath, origDir], initTr ++ tr,
          initLg ++ lg ++ ["Git operation failed"]⟩

/-! Helper lemmas shared by the claim theorems. -/

theorem afterLast_not_mem (sep : Char) :
    ∀ l : List Char, sep ∉ afterLast sep l := by
  intro l
  induction l with
  | nil => simp [afterLast]
  | cons c cs ih =>
    by_cases h : sep ∈ cs
    · simpa [afterLast, h] using ih
    · by_cases hc : c = sep
      · simp [afterLast, h, hc]
      · simp only [afterLast]
        rw [if_neg (by simpa using h), if_neg hc]
        simp only [List.mem_cons, not_or]
        exact ⟨fun he => hc he.symm, h⟩

theorem afterLast_eq_self (sep : Char) :
    ∀ l : List Char, sep ∉ l → afterLast sep l = l := by
  intro l
  induction l with
  | nil => intro _; rfl
  | cons c cs ih =>
    intro h
    rw [List.mem_cons, not_or] at h
    simp only [afterLast]
    rw [if_neg (by simpa using h.2), if_neg (fun hc => h.1 hc.symm)]

theorem lastDotSuffix_isSome :
    ∀ l : List Char, (lastDotSuffix l).isSome = true ↔ '.' ∈ l := by
  intro l
  induction l with
  | nil => simp [lastDotSuffix]
  | cons c cs ih =>
    unfold lastDotSuffix
    cases h : lastDotSuffix cs with
    | some s =>
      have : '.' ∈ cs := ih.mp (by simp [h])
      simp [List.mem_cons, this]
    | none =>
      have hcs : '.' ∉ cs := fun hm => by
        have := ih.mpr hm
        rw [h] at this
        exact absurd this (by simp)
      by_cases hc : c = '.'
      · simp [hc]
      · rw [if_neg hc]
        simp only [Option.isSome_none, List.mem_cons]
        constructor
        · intro hf; exact absurd hf (by simp)
        · rintro (he | hm)
          · exact absurd he.symm hc
          · exact absurd hm hcs

theorem lastDotSuffix_shape :
    ∀ (l e : List Char), lastDotSuffix l = some e → ∃ cs, e = '.' :: cs := by
  intro l
  induction l with
  | nil => intro e h; exact absurd h (by simp [lastDotSuffix])
  | cons c cs ih =>
    intro e h
    unfold lastDotSuffix at h
    cases hcs : lastDotSuffix cs with
    | some s => rw [hcs] at h; exact ih e (hcs.trans h)
    | none =>
      rw [hcs] at h
      by_cases hc : c = '.'
      · rw [if_pos hc] at h
        have he := Option.some.inj h
        exact ⟨cs, by rw [← he, hc]⟩
      · rw [if_neg hc] at h
        exact absurd h (by simp)

theorem runAdds_all_ok (env : GitEnv) (rp : String → String) :
    ∀ files : List String, (∀ f ∈ files, env.addOk (rp f) = true) →
      runAdds env rp files = (.ok (), files.map (fun f => GitCmd.add (rp f))) := by
  intro files
  induction files with
  | nil => intro _; rfl
  | cons f fs ih =>
    intro h
    have hf := h f (List.mem_cons_self f fs)
    have ht := ih (fun g hg => h g (List.mem_cons_of_mem f hg))
    simp [runAdds, hf, ht]

/-! Claim theorems. -/

/-- C1, counterexample: the claim's concrete example is wrong on the code.
The input `"../../etc/passwd"` contains four dots, so the sanitizer (which
drops, and does not replace, the six slashes-and-nothing-else characters it
rejects) yields `"....etcpasswd"`, not the claimed `"......etcpasswd"`. -/
theorem c1_counterexample :
    sanitizeFilename "../../etc/passwd" ≠ "......etcpasswd" := by decide

/-- C1, amended: the sanitization applied before the output path is
constructed keeps exactly the characters that are letters, digits, `'.'`,
`'_'`, `'-'` or space (every kept character is from that set, every character
of the input from that set is kept with its multiplicity, and the kept
characters appear in input order, i.e. the result is the whitelist filter of
the input); in particular `"../../etc/passwd"` sanitizes to
`"....etcpasswd"`, which contains no path separator. -/
theorem c1_sanitizer_charset :
    ∀ s : String,
      (∀ c ∈ (sanitizeFilename s).data,
        (c.isAlphanum = true ∨ c = '.' ∨ c = '_' ∨ c = '-' ∨ c = ' ') ∧ c ≠ '/')
      ∧ (sanitizeFilename s).data.Sublist s.data
      ∧ (sanitizeFilename s).data = s.data.filter keepChar
      ∧ sanitizeFilename "../../etc/passwd" = "....etcpasswd" := by
  intro s
  refine ⟨?_, List.filter_sublist s.data, rfl, by decide⟩
  intro c hc
  have hk : keepChar c = true := (List.mem_filter.mp hc).2
  constructor
  · rcases Bool.or_eq_true_iff.mp hk with h | h
    · rcases Bool.or_eq_true_iff.mp h with h' | h'
      · rcases Bool.or_eq_true_iff.mp h' with h'' | h''
        · rcases Bool.or_eq_true_iff.mp h'' with h3 | h3
          · exact Or.inl h3
          · exact Or.inr (Or.inl (by simpa using h3))
        · exact Or.inr (Or.inr (Or.inl (by simpa using h'')))
      · exact Or.inr (Or.inr (Or.inr (Or.inl (by simpa using h'))))
    · exact Or.inr (Or.inr (Or.inr (Or.inr (by simpa using h))))
  · intro hslash
    rw [hslash] at hk
    exact absurd hk (by decide)

/-- C1, witness: the amended theorem applied at the claim's own example. -/
theorem c1_sanitizer_charset_witness :
    (('p'.isAlphanum = true ∨ 'p' = '.' ∨ 'p' = '_' ∨ 'p' = '-' ∨ 'p' = ' ') ∧ 'p' ≠ '/')
    ∧ sanitizeFilename "../../etc/passwd" = "....etcpasswd" :=
  ⟨(c1_sanitizer_charset "../../etc/passwd").1 'p' (by decide),
   (c1_sanitizer_charset "../../etc/passwd").2.2.2⟩

/-- splitext_spec_agree: on a path segment that does not begin with a dot,
the source's `splitext`-or-`.zip` extension coincides with the spec's
text-after-the-last-dot-or-`.zip` rule. -/
theorem splitext_spec_agree (seg : List Char) (hnos : '/' ∉ seg)
    (hhead : seg.head? ≠ some '.') :
    (if splitextExt (String.mk seg) = "" then ".zip" else splitextExt (String.mk seg))
      = (match lastDotSuffix seg with
         | some e => String.mk e
         | none => ".zip") := by
  have hb : afterLast '/' seg = seg := afterLast_eq_self '/' seg hnos
  by_cases hdot : '.' ∈ seg
  · rcases seg with _ | ⟨c, cs⟩
    · exact absurd hdot (by simp)
    · have hc : c ≠ '.' := by
        intro h
        exact hhead (by simp [h])
      have hsome : ∃ e, lastDotSuffix (c :: cs) = some e := by
        have hi := (lastDotSuffix_isSome (c :: cs)).mpr hdot
        cases he : lastDotSuffix (c :: cs) with
        | some e => exact ⟨e, rfl⟩
        | none => rw [he] at hi; exact absurd hi (by simp)
      obtain ⟨e, he⟩ := hsome
      obtain ⟨cs', he'⟩ := lastDotSuffix_shape (c :: cs) e he
      have hsp : splitextExt (String.mk (c :: cs)) = String.mk e := by
        unfold splitextExt
        rw [show (String.mk (c :: cs)).data = c :: cs from rfl, hb]
        dsimp only
        simp [List.takeWhile_cons, hc, hdot, he]
      rw [hsp, he]
      rw [if_neg (by
        intro hmk
        have := congrArg String.data hmk
        rw [he'] at this
        exact absurd this (by simp))]
  · have hnone : lastDotSuffix seg = none := by
      cases he : lastDotSuffix seg with
      | none => rfl
      | some e => exact absurd ((lastDotSuffix_isSome seg).mp (by simp [he])) hdot
    have hsp : splitextExt (String.mk seg) = "" := by
      unfold splitextExt
      rw [show (String.mk seg).data = seg from rfl, hb]
      have hmem : '.' ∉ seg.drop (seg.takeWhile (fun c => c = '.')).length :=
        fun hm => hdot (List.drop_subset _ _ hm)
      rw [if_neg (by simpa using hmem)]
    rw [hnone, hsp]
    simp

/-- C2, counterexample: the claim's extension rule ("text after the last `.`
in the last path segment, `.zip` only when the path has no extension") fails
on the code for a segment whose only dot is the leading one: for the URL
`https://x/.gz?token=1` the spec rule yields `.gz` and hence `foo.bar.gz`,
but `os.path.splitext('.gz')` treats a leading dot as no extension, so the
code composes `foo.bar.zip`. -/
theorem c2_counterexample :
    deriveFilename [("name", Json.str "foo"), ("type", Json.str "bar")] "https://x/.gz?token=1"
      = Json.str "foo.bar.zip"
    ∧ specExtC2 "https://x/.gz?token=1" = ".gz"
    ∧ ("foo.bar.zip" : String) ≠ "foo.bar" ++ ".gz" :=
  ⟨rfl, by decide, by decide⟩

/-- C2, amended: when both `name` and `type` are present the computed
filename (before sanitization) is `"{name}.{type}{ext}"`, where `ext` is the
`os.path.splitext` extension of the URL's last path segment (query string
ignored) — the text from the last `.` onwards provided some character of the
segment before that dot is not a leading dot — defaulting to `.zip` when the
segment has no such extension; on every segment that does not begin with a
dot this agrees with the claim's text-after-the-last-dot rule, and for
`name="foo"`, `type="bar"`, URL `https://x/y.tar.gz?token=1` the computed
filename is `foo.bar.gz`. -/
theorem c2_filename_composition :
    ∀ (kvs : List (String × Json)) (url : String) (n t : Json),
      lookupKey kvs "name" = some n → lookupKey kvs "type" = some t →
      deriveFilename kvs url =
        Json.str (pyStr n ++ "." ++ pyStr t ++
          (if splitextExt (String.mk (afterLast '/' (beforeFirst '?' url.data))) = ""
           then ".zip"
           else splitextExt (String.mk (afterLast '/' (beforeFirst '?' url.data)))))
      ∧ ((afterLast '/' (beforeFirst '?' url.data)).head? ≠ some '.' →
          (if splitextExt (String.mk (afterLast '/' (beforeFirst '?' url.data))) = ""
           then ".zip"
           else splitextExt (String.mk (afterLast '/' (beforeFirst '?' url.data))))
            = specExtC2 url)
      ∧ deriveFilename [("name", Json.str "foo"), ("type", Json.str "bar")]
          "https://x/y.tar.gz?token=1" = Json.str "foo.bar.gz" := by
  intro kvs url n t hn ht
  refine ⟨?_, ?_, rfl⟩
  · simp [deriveFilename, hasKey, hn, ht, getKeyD]
  · intro hhead
    have h := splitext_spec_agree (afterLast '/' (beforeFirst '?' url.data))
      (afterLast_not_mem '/' _) hhead
    rw [h]
    rfl

/-- C2, witness: the amended theorem applied at the claim's own example. -/
theorem c2_filename_composition_witness :
    deriveFilename [("name", Json.str "foo"), ("type", Json.str "bar")]
        "https://x/y.tar.gz?token=1"
      = Json.str ("foo" ++ "." ++ "bar" ++
          (if splitextExt (String.mk (afterLast '/'
              (beforeFirst '?' "https://x/y.tar.gz?token=1".data))) = ""
           then ".zip"
           else splitextExt (String.mk (afterLast '/'
              (beforeFirst '?' "https://x/y.tar.gz?token=1".data)))))
    ∧ (if splitextExt (String.mk (afterLast '/'
          (beforeFirst '?' "https://x/y.tar.gz?token=1".data))) = ""
       then ".zip"
       else splitextExt (String.mk (afterLast '/'
          (beforeFirst '?' "https://x/y.tar.gz?token=1".data))))
        = specExtC2 "https://x/y.tar.gz?token=1" := by
  have h := c2_filename_composition [("name", Json.str "foo"), ("type", Json.str "bar")]
    "https://x/y.tar.gz?token=1" (Json.str "foo") (Json.str "bar") rfl rfl
  exact ⟨h.1, h.2.1 (by decide)⟩

/-- C3, confirmed: the container keys `assets`, `items`, `data`, `results`
are scanned in that order and the first key that is present with a sequence
value is selected — a present key with a non-sequence value does not stop
the scan (first conjunct: `results` is selected past three non-sequence
candidates); when no candidate key holds a sequence the dict yields no asset
array and the whole operation fails (second and third conjuncts); and the
scan respects the priority order (`assets` wins when it holds a sequence,
fourth conjunct). -/
theorem c3_container_selection :
    ∀ (dl : String → String → Bool) (un : String → String) (gitResult : Bool)
      (dir gitRepo : String) (kvs kvs2 kvs3 : List (String × Json)) (rs as : List Json),
      isListVal (lookupKey kvs "assets") = false →
      isListVal (lookupKey kvs "items") = false →
      isListVal (lookupKey kvs "data") = false →
      lookupKey kvs "results" = some (.arr rs) →
      (assetKeys.all fun k => !isListVal (lookupKey kvs2 k)) = true →
      lookupKey kvs3 "assets" = some (.arr as) →
      findAssets (.obj kvs) = some rs
      ∧ findAssets (.obj kvs2) = none
      ∧ processAssets dl un gitResult (some (.obj kvs2)) dir gitRepo = false
      ∧ findAssets (.obj kvs3) = some as := by
  intro dl un gitResult dir gitRepo kvs kvs2 kvs3 rs as h1 h2 h3 h4 h5 h6
  simp only [assetKeys, List.all_cons, List.all_nil, Bool.and_true, Bool.and_eq_true,
    Bool.not_eq_true'] at h5
  obtain ⟨g1, g2, g3, g4⟩ := h5
  have f2 : findAssets (.obj kvs2) = none := by
    simp [findAssets, assetKeys, List.find?, g1, g2, g3, g4]
  have h4' : isListVal (lookupKey kvs "results") = true := by rw [h4]; rfl
  have h6' : isListVal (lookupKey kvs3 "assets") = true := by rw [h6]; rfl
  refine ⟨?_, f2, ?_, ?_⟩
  · simp only [findAssets, assetKeys, List.find?, h1, h2, h3, h4]
    simp [isListVal, h4]
  · simp only [processAssets, f2]
    split <;> rfl
  · simp only [findAssets, assetKeys, List.find?, h6]
    simp [isListVal, h6]

/-- C3, witness: a dict whose only sequence-valued candidate key is
`results` (with `assets` present but holding a string), a dict with no
sequence-valued candidate key, and a dict where `assets` holds a sequence. -/
theorem c3_container_selection_witness :
    findAssets (.obj [("assets", Json.str "x"), ("results", Json.arr [Json.null])])
      = some [Json.null]
    ∧ findAssets (.obj [("data", Json.str "y")]) = none
    ∧ processAssets (fun _ _ => true) id true
        (some (.obj [("data", Json.str "y")])) "out" "" = false
    ∧ findAssets (.obj [("assets", Json.arr []), ("results", Json.arr [Json.null])])
      = some [] :=
  c3_container_selection (fun _ _ => true) id true "out" ""
    [("assets", Json.str "x"), ("results", Json.arr [Json.null])]
    [("data", Json.str "y")]
    [("assets", Json.arr []), ("results", Json.arr [Json.null])]
    [Json.null] [] rfl rfl rfl rfl rfl rfl

/-- C4, confirmed: per-asset errors are isolated.  In a batch of three
records — one lacking all five recognized URL keys, one whose download
fails, and one whose download succeeds — the first two are skipped without
aborting the iteration, the third is still processed, and the batch reports
overall success. -/
theorem c4_per_asset_isolation :
    ∀ (dl : String → String → Bool) (un : String → String) (gitResult : Bool)
      (dir gitRepo : String)
      (noUrlKvs failKvs okKvs : List (String × Json)) (s2 s3 fn2 fn3 : String),
      (urlKeys.all fun k => (lookupKey noUrlKvs k).isNone) = true →
      scanUrl failKvs = some (.str s2) →
      pyFalsy (.str s2) = false →
      deriveFilename failKvs (un s2) = .str fn2 →
      dl (un s2) (pyJoin dir (sanitizeFilename fn2)) = false →
      scanUrl okKvs = some (.str s3) →
      pyFalsy (.str s3) = false →
      deriveFilename okKvs (un s3) = .str fn3 →
      dl (un s3) (pyJoin dir (sanitizeFilename fn3)) = true →
      (gitRepo ≠ "" → gitResult = true) →
      processList dl un dir [.obj noUrlKvs, .obj failKvs, .obj okKvs]
        = .ok [pyJoin dir (sanitizeFilename fn3)]
      ∧ processAssets dl un gitResult
          (some (.arr [.obj noUrlKvs, .obj failKvs, .obj okKvs])) dir gitRepo = true := by
  intro dl un gitResult dir gitRepo noUrlKvs failKvs okKvs s2 s3 fn2 fn3
  intro h1 h2a h2b h2c h2d h3a h3b h3c h3d hgit
  simp only [urlKeys, List.all_cons, List.all_nil, Bool.and_true, Bool.and_eq_true,
    Option.isNone_iff_eq_none] at h1
  obtain ⟨g1, g2, g3, g4, g5⟩ := h1
  have hscan1 : scanUrl noUrlKvs = none := by
    simp [scanUrl, urlKeys, List.find?, hasKey, g1, g2, g3, g4, g5]
  have hrec1 : processRecord dl un dir (.obj noUrlKvs) = .ok none := by
    simp [processRecord, hscan1]
  have hrec2 : processRecord dl un dir (.obj failKvs) = .ok none := by
    simp [processRecord, h2a, h2b, h2c, h2d]
  have hrec3 : processRecord dl un dir (.obj okKvs)
      = .ok (some (pyJoin dir (sanitizeFilename fn3))) := by
    simp [processRecord, h3a, h3b, h3c, h3d]
  have hlist : processList dl un dir [.obj noUrlKvs, .obj failKvs, .obj okKvs]
      = .ok [pyJoin dir (sanitizeFilename fn3)] := by
    simp [processList, hrec1, hrec2, hrec3, Except.map]
  refine ⟨hlist, ?_⟩
  simp only [processAssets, findAssets, hlist]
  by_cases hg : gitRepo = ""
  · simp [hg, pyFalsy]
  · simp [hg, hgit hg, pyFalsy]

/-- C4, witness: a concrete three-record batch (one record with no URL key,
one whose download fails, one that succeeds) with no publish requested. -/
theorem c4_per_asset_isolation_witness :
    processList (fun u _ => u == "https://h/f2.zip") id "out"
      [.obj [("name", Json.str "a")],
       .obj [("url", Json.str "https://h/f1.zip")],
       .obj [("url", Json.str "https://h/f2.zip")]]
      = .ok [pyJoin "out" (sanitizeFilename "f2.zip")]
    ∧ processAssets (fun u _ => u == "https://h/f2.zip") id true
        (some (.arr [.obj [("name", Json.str "a")],
          .obj [("url", Json.str "https://h/f1.zip")],
          .obj [("url", Json.str "https://h/f2.zip")]])) "out" "" = true :=
  c4_per_asset_isolation (fun u _ => u == "https://h/f2.zip") id true "out" ""
    [("name", Json.str "a")] [("url", Json.str "https://h/f1.zip")]
    [("url", Json.str "https://h/f2.zip")]
    "https://h/f1.zip" "https://h/f2.zip" "f1.zip" "f2.zip"
    rfl rfl rfl rfl rfl rfl rfl rfl rfl (fun h => absurd rfl h)

/-- processAssets_true_iff characterizes the success of `process_assets`:
truthy JSON, an asset array, no exception in the loop, a nonempty
`downloaded_files` list, and a successful publish whenever one is requested. -/
theorem processAssets_true_iff (dl : String → String → Bool) (un : String → String)
    (gitResult : Bool) (jd : Option Json) (dir gitRepo : String) :
    processAssets dl un gitResult jd dir gitRepo = true ↔
      ∃ j assets files, jd = some j ∧ pyFalsy j = false ∧ findAssets j = some assets
        ∧ processList dl un dir assets = .ok files ∧ files ≠ []
        ∧ (gitRepo ≠ "" → gitResult = true) := by
  cases jd with
  | none => simp [processAssets]
  | some j =>
    by_cases hf : pyFalsy j
    · simp [processAssets, hf]
    · rw [Bool.not_eq_true] at hf
      cases hfa : findAssets j with
      | none => simp [processAssets, hf, hfa]
      | some assets =>
        cases hpl : processList dl un dir assets with
        | error e => simp [processAssets, hf, hfa, hpl]
        | ok files =>
          simp only [processAssets, hf, hfa, hpl, Bool.false_eq_true, if_false]
          by_cases hg : gitRepo = ""
          · subst hg
            simp [hf, List.length_pos]
            constructor
            · intro hne
              exact ⟨assets, hfa, files, hpl, hne⟩
            · rintro ⟨a, ha, f, hfs, hne⟩
              rw [hfa] at ha
              cases Option.some.inj ha
              rw [hpl] at hfs
              injection hfs with hq
              rw [hq]
              exact hne
          · by_cases he : files = []
            · subst he
              simp [hg]
              intro _ a ha f hfs hne
              rw [hfa] at ha
              cases Option.some.inj ha
              rw [hpl] at hfs
              injection hfs with hq
              rw [← hq] at hne
              exact absurd rfl hne
            · rw [if_pos (by simp [hg, he])]
              constructor
              · intro hgr
                exact ⟨j, assets, files, rfl, hf, hfa, hpl, he, fun _ => hgr⟩
              · rintro ⟨j', a, f, hj, hpf, ha, hfs, hne, hgr⟩
                exact hgr hg

/-- C5, counterexample: a run whose exit code is 1 while none of the
claim's four listed failure conditions holds.  The JSON string `"x"` parses
(per the parser oracle) to `{"assets": []}`: the JSON is loaded, the asset
array is found (it is empty), and no publish is requested (`git_repo` is
falsy), so neither "no files downloaded when a publish was requested" nor a
publish-step failure applies — yet the process exits 1 because zero files
were downloaded. -/
theorem c5_counterexample :
    mainExit (fun _ _ => true) id true (fun _ => Except.error ())
      (fun _ => some (Json.obj [("assets", Json.arr [])])) none (some "x") "out" "" = 1
    ∧ ¬ c5SpecFailure (fun _ _ => true) id true (fun _ => Except.error ())
      (fun _ => some (Json.obj [("assets", Json.arr [])])) none (some "x") "out" "" := by
  refine ⟨rfl, ?_⟩
  have hload : loadJsonData (fun _ => Except.error ())
      (fun _ => some (Json.obj [("assets", Json.arr [])])) none (some "x")
      = some (Json.obj [("assets", Json.arr [])]) := rfl
  intro hfail
  rcases hfail with h | ⟨j, hj, hfa⟩ | ⟨hg, _⟩ | ⟨hg, _, _⟩
  · rw [hload] at h
    exact absurd h (by simp)
  · rw [hload] at hj
    cases Option.some.inj hj
    have : findAssets (Json.obj [("assets", Json.arr [])]) = some [] := rfl
    rw [this] at hfa
    exact absurd hfa (by simp)
  · exact hg rfl
  · exact hg rfl

/-- C5, amended: the process exit code is 0 exactly on overall success and 1
otherwise, where success means: JSON was loaded and is truthy, an asset
array was found, no unexpected error occurred while iterating it, at least
one file was downloaded, and — whenever a publish was requested (truthy
repository path) — the publish step succeeded.  (Relative to the claim, the
failure side also covers "no files downloaded" when no publish was
requested, and unexpected asset-processing errors.) -/
theorem c5_exit_code :
    ∀ (dl : String → String → Bool) (un : String → String) (gitResult : Bool)
      (readFile : String → Except Unit String) (parse : String → Option Json)
      (jsonFile jsonString : Option String) (dir gitRepo : String),
      (mainExit dl un gitResult readFile parse jsonFile jsonString dir gitRepo = 0
        ↔ c5Success dl un gitResult readFile parse jsonFile jsonString dir gitRepo)
      ∧ (mainExit dl un gitResult readFile parse jsonFile jsonString dir gitRepo = 1
        ↔ ¬ c5Success dl un gitResult readFile parse jsonFile jsonString dir gitRepo) := by
  intro dl un gitResult readFile parse jsonFile jsonString dir gitRepo
  have h := processAssets_true_iff dl un gitResult
    (loadJsonData readFile parse jsonFile jsonString) dir gitRepo
  have hs : c5Success dl un gitResult readFile parse jsonFile jsonString dir gitRepo ↔
      processAssets dl un gitResult (loadJsonData readFile parse jsonFile jsonString)
        dir gitRepo = true := h.symm
  by_cases hp : processAssets dl un gitResult (loadJsonData readFile parse jsonFile jsonString)
      dir gitRepo = true
  · constructor
    · simp [mainExit, hp, hs.mpr hp]
    · simp [mainExit, hp, hs.mpr hp]
  · rw [Bool.not_eq_true] at hp
    constructor
    · simp only [mainExit, hp, Bool.false_eq_true, if_false]
      constructor
      · intro h10
        exact absurd h10 (by simp)
      · intro hsucc
        exact absurd (hs.mp hsucc) (by simp [hp])
    · simp only [mainExit, hp, Bool.false_eq_true, if_false]
      constructor
      · intro _ hsucc
        exact absurd (hs.mp hsucc) (by simp [hp])
      · intro _
        trivial

/-- C6, confirmed: `download_file` returns a boolean for every URL,
destination and mode — its embedding is a total function, so no exception
crosses the boundary — and it returns `true` exactly when no failure occurs
on the exercised path (directory creation and mock write in mock mode;
directory creation, a transport-error-free response with a non-error status,
and the body write in live mode); on an HTTP 404 it returns `false` and logs
the URL-not-found message together with the mock-mode hint. -/
theorem c6_download_boundary :
    ∀ (env : DlEnv) (url path : String) (mock : Bool),
      ((downloadFile env url path mock).1 = true ↔
        (env.mkdirOk = true ∧
          ((mock = true ∧ env.mockWriteOk = true) ∨
           (mock = false ∧ env.bodyWriteOk = true ∧
             ∃ s, env.httpResult = .ok s ∧ ¬(400 ≤ s ∧ s < 600)))))
      ∧ (env.mkdirOk = true → mock = false → env.httpResult = .ok 404 →
          (downloadFile env url path mock).1 = false
          ∧ notFoundMsg url ∈ (downloadFile env url path mock).2
          ∧ mockHintMsg ∈ (downloadFile env url path mock).2) := by
  intro env url path mock
  obtain ⟨mk, mw, hr, bw⟩ := env
  constructor
  · cases mk with
    | false => cases mock <;> simp [downloadFile]
    | true =>
      cases mock with
      | true => cases mw <;> simp [downloadFile]
      | false =>
        cases hr with
        | error e => simp [downloadFile]
        | ok s =>
          by_cases hs : 400 ≤ s ∧ s < 600
          · by_cases h4 : s = 404 <;> simp [downloadFile, hs.1, hs.2, h4]
          · have hb : (decide (400 ≤ s) && decide (s < 600)) = false := by
              by_cases h1 : 400 ≤ s
              · by_cases h2 : s < 600
                · exact absurd ⟨h1, h2⟩ hs
                · simp [h2]
              · simp [h1]
            cases bw with
            | true =>
              simp [downloadFile, hb]
              exact fun h1 => Nat.le_of_not_lt (fun h2 => hs ⟨h1, h2⟩)
            | false => simp [downloadFile, hb]
  · intro hmk hmock h404
    cases hmk
    cases hmock
    cases h404
    refine ⟨rfl, ?_, ?_⟩ <;> simp [downloadFile]

/-- C6, witness: a live-mode call whose response status is 404. -/
theorem c6_download_boundary_witness :
    (downloadFile ⟨true, true, .ok 404, true⟩ "u" "p" false).1 = false
    ∧ notFoundMsg "u" ∈ (downloadFile ⟨true, true, .ok 404, true⟩ "u" "p" false).2
    ∧ mockHintMsg ∈ (downloadFile ⟨true, true, .ok 404, true⟩ "u" "p" false).2 :=
  (c6_download_boundary ⟨true, true, .ok 404, true⟩ "u" "p" false).2 rfl rfl rfl

/-- C7, confirmed: on every exit path of the standalone publisher — success,
expected failure of a version-control command, and unexpected error — the
last directory change performed (if any) targets the original working
directory, so after `git_operations` returns the process cwd equals what it
was on entry. -/
theorem c7_cwd_restored :
    ∀ (env : GitEnv) (relpath : String → String → String) (repo : String)
      (files : List String) (branch msg origDir : String),
      ((gitOperationsStandalone env relpath repo files branch msg origDir).chdirs.getLastD
        origDir) = origDir := by
  intro env relpath repo files branch msg origDir
  by_cases h1 : (!env.gitDirExists && !env.initOk) = true
  · simp [gitOperationsStandalone, h1]
  · by_cases h2 : (!env.chdirRepoOk) = true
    · simp [gitOperationsStandalone, h1, h2]
    · rcases h3 : gitInner env (fun f => relpath f repo) files branch msg with ⟨r, tr, lg⟩
      cases r <;> simp [gitOperationsStandalone, h1, h2, h3, List.getLastD]

/-- C8, confirmed: standalone publish against a directory with no
version-control metadata, with every command succeeding, a new branch, a
nonempty status, and no `origin` remote: the publisher initializes the
repository, creates and switches to the branch, stages every file, commits,
logs the skipping-push warning, never runs a push, restores the working
directory, and returns success. -/
theorem c8_standalone_no_remote :
    ∀ (env : GitEnv) (relpath : String → String → String) (repo : String)
      (files : List String) (branch msg origDir : String),
      env.gitDirExists = false → env.initOk = true → env.chdirRepoOk = true →
      env.revParseRc ≠ 0 → env.checkoutOk = true →
      (∀ f ∈ files, env.addOk (relpath f repo) = true) →
      stripTruthy env.statusOut = true → env.commitOk = true →
      charsHasSub "origin".data env.remoteOut.data = false →
      (gitOperationsStandalone env relpath repo files branch msg origDir).ok = true
      ∧ (gitOperationsStandalone env relpath repo files branch msg origDir).chdirs
          = [repo, origDir]
      ∧ (gitOperationsStandalone env relpath repo files branch msg origDir).trace
        = [.init repo, .revParse branch, .checkoutNew branch]
          ++ files.map (fun f => GitCmd.add (relpath f repo))
          ++ [.status, .commit msg, .remoteList]
      ∧ "No remote repository configured, skipping push"
          ∈ (gitOperationsStandalone env relpath repo files branch msg origDir).logs
      ∧ (∀ b, GitCmd.push b ∉
          (gitOperationsStandalone env relpath repo files branch msg origDir).trace) := by
  intro env relpath repo files branch msg origDir
  intro hno hinit hchdir hrev hco hadds hstat hcommit hremote
  have hruns := runAdds_all_ok env (fun f => relpath f repo) files hadds
  have hafter : gitAfterCheckout env (fun f => relpath f repo) files branch msg
      [.revParse branch, .checkoutNew branch]
      ["Created and checked out new branch: " ++ branch]
      = (.ok (),
         [GitCmd.revParse branch, GitCmd.checkoutNew branch]
           ++ files.map (fun f => GitCmd.add (relpath f repo)) ++ [.status]
           ++ [.commit msg, .remoteList],
         ["Created and checked out new branch: " ++ branch,
          "Committed changes with message: " ++ msg,
          "No remote repository configured, skipping push"]) := by
    simp [gitAfterCheckout, hruns, hstat, hcommit, hremote]
  have hinner : gitInner env (fun f => relpath f repo) files branch msg
      = (.ok (),
         [GitCmd.revParse branch, GitCmd.checkoutNew branch]
           ++ files.map (fun f => GitCmd.add (relpath f repo)) ++ [.status]
           ++ [.commit msg, .remoteList],
         ["Created and checked out new branch: " ++ branch,
          "Committed changes with message: " ++ msg,
          "No remote repository configured, skipping push"]) := by
    simp [gitInner, hrev, hco, hafter]
  have hgo : gitOperationsStandalone env relpath repo files branch msg origDir
      = ⟨true, [repo, origDir],
         [GitCmd.init repo]
           ++ ([GitCmd.revParse branch, GitCmd.checkoutNew branch]
             ++ files.map (fun f => GitCmd.add (relpath f repo)) ++ [.status]
             ++ [.commit msg, .remoteList]),
         ["Initialized new Git repository at " ++ repo]
           ++ ["Created and checked out new branch: " ++ branch,
               "Committed changes with message: " ++ msg,
               "No remote repository configured, skipping push"]⟩ := by
    simp [gitOperationsStandalone, hno, hinit, hchdir, hinner]
  rw [hgo]
  refine ⟨rfl, rfl, by simp, by simp, ?_⟩
  intro b
  simp [List.mem_append, List.mem_map]

/-- C8, witness: a concrete fresh repository with one file and no remote. -/
theorem c8_standalone_no_remote_witness :
    (gitOperationsStandalone
        ⟨false, true, true, 1, true, fun _ => true, " M f\n", true, "", true⟩
        (fun f _ => f) "repo" ["f1"] "main" "m" "/orig").ok = true
    ∧ (gitOperationsStandalone
        ⟨false, true, true, 1, true, fun _ => true, " M f\n", true, "", true⟩
        (fun f _ => f) "repo" ["f1"] "main" "m" "/orig").chdirs = ["repo", "/orig"]
    ∧ (gitOperationsStandalone
        ⟨false, true, true, 1, true, fun _ => true, " M f\n", true, "", true⟩
        (fun f _ => f) "repo" ["f1"] "main" "m" "/orig").trace
      = [.init "repo", .revParse "main", .checkoutNew "main"]
        ++ ["f1"].map (fun f => GitCmd.add ((fun f _ => f) f "repo"))
        ++ [.status, .commit "m", .remoteList]
    ∧ "No remote repository configured, skipping push"
        ∈ (gitOperationsStandalone
            ⟨false, true, true, 1, true, fun _ => true, " M f\n", true, "", true⟩
            (fun f _ => f) "repo" ["f1"] "main" "m" "/orig").logs
    ∧ (∀ b, GitCmd.push b ∉
        (gitOperationsStandalone
            ⟨false, true, true, 1, true, fun _ => true, " M f\n", true, "", true⟩
            (fun f _ => f) "repo" ["f1"] "main" "m" "/orig").trace) :=
  c8_standalone_no_remote
    ⟨false, true, true, 1, true, fun _ => true, " M f\n", true, "", true⟩
    (fun f _ => f) "repo" ["f1"] "main" "m" "/orig"
    rfl rfl rfl (by decide) rfl (by intro f _; rfl) (by decide) rfl (by decide)

/-- C9, confirmed: the input loader consults exactly one of its two inputs —
when a (truthy) file path is given the result does not depend on the string
input at all — yields null on a read failure of the file, on a parse failure
of whichever input was consulted, and when neither input is provided; its
embedding is a total function, so no exception crosses the boundary. -/
theorem c9_loader_policy :
    ∀ (readFile : String → Except Unit String) (parse : String → Option Json)
      (p s : String), p ≠ "" → s ≠ "" →
      (loadJsonData readFile parse (some p) (some s)
        = loadJsonData readFile parse (some p) none)
      ∧ (readFile p = .error () → loadJsonData readFile parse (some p) (some s) = none)
      ∧ (∀ t, readFile p = .ok t → parse t = none →
          loadJsonData readFile parse (some p) (some s) = none)
      ∧ (parse s = none → loadJsonData readFile parse none (some s) = none)
      ∧ loadJsonData readFile parse none none = none := by
  intro readFile parse p s hp hs
  refine ⟨?_, ?_, ?_, ?_, rfl⟩
  · simp [loadJsonData, hp]
  · intro hrf
    simp [loadJsonData, hp, hrf]
  · intro t hrf hpt
    simp [loadJsonData, hp, hrf, hpt]
  · intro hps
    simp [loadJsonData, loadFromString, hs, hps]

/-- C9, witness: a failing file read with a string input also present. -/
theorem c9_loader_policy_witness :
    (loadJsonData (fun _ => Except.error ()) (fun _ => some Json.null)
        (some "f.json") (some "[1]")
      = loadJsonData (fun _ => Except.error ()) (fun _ => some Json.null)
        (some "f.json") none)
    ∧ loadJsonData (fun _ => Except.error ()) (fun _ => some Json.null)
        (some "f.json") (some "[1]") = none :=
  ⟨(c9_loader_policy (fun _ => Except.error ()) (fun _ => some Json.null)
      "f.json" "[1]" (by decide) (by decide)).1,
   (c9_loader_policy (fun _ => Except.error ()) (fun _ => some Json.null)
      "f.json" "[1]" (by decide) (by decide)).2.1 rfl⟩

/-- C10, confirmed: the URL key scan stops at the first of the five
recognized keys present in the record regardless of its value (the scanned
value is exactly that key's value), and when that value is falsy the record
is skipped while iteration continues with the remaining records. -/
theorem c10_first_key_falsy_skip :
    ∀ (dl : String → String → Bool) (un : String → String) (dir : String)
      (kvs : List (String × Json)) (rest : List Json) (k : String) (v : Json),
      urlKeys.find? (fun k' => hasKey kvs k') = some k →
      lookupKey kvs k = some v →
      pyFalsy v = true →
      scanUrl kvs = some v
      ∧ processList dl un dir (.obj kvs :: rest) = processList dl un dir rest := by
  intro dl un dir kvs rest k v hfind hlook hfalsy
  have hscan : scanUrl kvs = some v := by
    simp [scanUrl, hfind, hlook]
  refine ⟨hscan, ?_⟩
  simp [processList, processRecord, hscan, hfalsy]

/-- C10, witness: a record whose first present URL key (`downloadLink`)
holds an empty string is skipped even though its later `url` key holds a
valid URL, and the following record is still processed. -/
theorem c10_first_key_falsy_skip_witness :
    scanUrl [("downloadLink", Json.str ""), ("url", Json.str "https://h/x.zip")]
      = some (Json.str "")
    ∧ processList (fun _ _ => true) id "out"
        (.obj [("downloadLink", Json.str ""), ("url", Json.str "https://h/x.zip")]
          :: [.obj [("url", Json.str "https://h/y.zip")]])
      = processList (fun _ _ => true) id "out" [.obj [("url", Json.str "https://h/y.zip")]] :=
  c10_first_key_falsy_skip (fun _ _ => true) id "out"
    [("downloadLink", Json.str ""), ("url", Json.str "https://h/x.zip")]
    [.obj [("url", Json.str "https://h/y.zip")]] "downloadLink" (Json.str "")
    rfl rfl rfl

